import Mathlib

/-!
Verification of the conversion core of `mkjxl.py` (TUI JXL Converter).

The Python source is shallowly embedded: pure computations become Lean
functions, the mutable `JxlConverterTUI` state relevant to the batch
pipeline becomes an explicit state record transformed by functions, the
filesystem is a frozen list of existing paths, and external processes are
oracles (return code, captured stderr, produced-file facts) passed as
parameters.  Python exceptions are modelled with `Option`/`Except`.
Python floats only ever hold values obtained from integers by division by
powers of two in the ranges the claims touch, where binary floating point
is exact, so they are modelled by `ℚ`.
-/

namespace Mkjxl

/-! ### Decimal rendering (model of Python `str(int)` / f-string `{n}`) -/

/-- Decimal digits of `n`, most significant first, as characters; `fuel`
bounds the recursion (`fuel ≥ n` suffices).  Empty for `n = 0`. -/
def toDecimalAux : Nat → Nat → List Char
  | 0, _ => []
  | _ + 1, 0 => []
  | fuel + 1, n + 1 =>
    toDecimalAux fuel ((n + 1) / 10) ++ [Char.ofNat (48 + (n + 1) % 10)]

/-- Model of Python's decimal rendering of a nonnegative integer
(`str(n)` / `f"{n}"`). -/
def natRepr (n : Nat) : String :=
  if n = 0 then "0" else String.mk (toDecimalAux n n)

/-- Left inverse of `natRepr` on character lists: the value a decimal
digit string denotes (also the model of Python `int()` on digit strings,
used by `set_quality` / `set_effort`). -/
def ofDecimal (l : List Char) : Nat :=
  l.foldl (fun acc c => 10 * acc + (c.toNat - 48)) 0

theorem toNat_ofNat_digit (d : Nat) (h : d < 10) :
    (Char.ofNat (48 + d)).toNat = 48 + d := by
  interval_cases d <;> decide

theorem foldl_toDecimalAux (fuel : Nat) :
    ∀ n acc, n ≤ fuel →
      (toDecimalAux fuel n).foldl (fun acc c => 10 * acc + (c.toNat - 48)) acc
        = acc * 10 ^ (toDecimalAux fuel n).length + n := by
  induction fuel with
  | zero =>
    intro n acc h
    interval_cases n
    simp [toDecimalAux]
  | succ fuel ih =>
    intro n acc h
    match n with
    | 0 => simp [toDecimalAux]
    | m + 1 =>
      rw [toDecimalAux]
      rw [List.foldl_append, List.length_append]
      have hdiv : (m + 1) / 10 ≤ fuel := by
        have : (m + 1) / 10 < m + 1 := Nat.div_lt_self (Nat.succ_pos m) (by omega)
        omega
      rw [ih ((m + 1) / 10) acc hdiv]
      have hd : (m + 1) % 10 < 10 := Nat.mod_lt _ (by omega)
      simp only [List.foldl_cons, List.foldl_nil, List.length_cons, List.length_nil,
        toNat_ofNat_digit _ hd]
      have : 48 + (m + 1) % 10 - 48 = (m + 1) % 10 := by omega
      rw [this]
      rw [pow_succ]
      have := Nat.div_add_mod (m + 1) 10
      ring_nf
      omega

theorem ofDecimal_natRepr (n : Nat) : ofDecimal (natRepr n).data = n := by
  unfold natRepr ofDecimal
  by_cases h : n = 0
  · subst h; decide
  · simp only [h, if_false]
    simpa using foldl_toDecimalAux n n 0 le_rfl

theorem natRepr_injective : Function.Injective natRepr := by
  intro a b h
  have : ofDecimal (natRepr a).data = ofDecimal (natRepr b).data := by rw [h]
  rwa [ofDecimal_natRepr, ofDecimal_natRepr] at this

theorem toDecimalAux_ne_nil (n : Nat) (h : n ≠ 0) : toDecimalAux n n ≠ [] := by
  match n with
  | 0 => exact absurd rfl h
  | m + 1 => rw [toDecimalAux]; simp

/-! ### Output-path conflict resolution (`_get_unique_target_path`, lines 305-316)

The directory-policy part (lines 306-309) resolves a target directory from
the configuration; the loop at lines 312-315 only depends on the resolved
directory string and the input stem, so the resolver is embedded over
those.  `reserved` models `existing_targets` (paths claimed earlier in the
same batch build, compared by `str(...)` equality) and `disk` models the
set of paths for which `Path.exists()` is true at build time. -/

/-- The `n`-th candidate path tried by the loop: `<dir>/<stem>.jxl` for
`n = 0` (line 312), `<dir>/<stem>-<n>.jxl` for `n ≥ 1` (line 315). -/
def candidate (dir stem : String) : Nat → String
  | 0 => dir ++ "/" ++ stem ++ ".jxl"
  | n + 1 => dir ++ "/" ++ stem ++ "-" ++ natRepr (n + 1) ++ ".jxl"

/-- Candidate `n` is neither claimed by the current batch build nor
existing on disk (negation of the loop condition at line 314). -/
def isFreeCandidate (dir stem : String) (reserved disk : List String) (n : Nat) : Prop :=
  candidate dir stem n ∉ reserved ∧ candidate dir stem n ∉ disk

instance (dir stem : String) (reserved disk : List String) :
    DecidablePred (isFreeCandidate dir stem reserved disk) := fun n => by
  unfold isFreeCandidate; infer_instance

theorem candidate_injective (dir stem : String) :
    Function.Injective (candidate dir stem) := by
  intro a b h
  have hlen : ∀ m : Nat, (candidate dir stem (m + 1)).data.length
      = dir.data.length + stem.data.length + 6 + (toDecimalAux (m + 1) (m + 1)).length := by
    intro m
    simp only [candidate, String.data_append, List.length_append, natRepr,
      Nat.succ_ne_zero, if_false]
    simp
    omega
  match a, b with
  | 0, 0 => rfl
  | 0, m + 1 =>
    exfalso
    have h0 : (candidate dir stem 0).data.length
        = dir.data.length + stem.data.length + 5 := by
      simp only [candidate, String.data_append, List.length_append]
      simp
      omega
    have hm := hlen m
    have hne := toDecimalAux_ne_nil (m + 1) (Nat.succ_ne_zero m)
    have : (toDecimalAux (m + 1) (m + 1)).length ≠ 0 := by
      simpa [List.length_eq_zero] using hne
    rw [h] at h0
    omega
  | m + 1, 0 =>
    exfalso
    have h0 : (candidate dir stem 0).data.length
        = dir.data.length + stem.data.length + 5 := by
      simp only [candidate, String.data_append, List.length_append]
      simp
      omega
    have hm := hlen m
    have hne := toDecimalAux_ne_nil (m + 1) (Nat.succ_ne_zero m)
    have : (toDecimalAux (m + 1) (m + 1)).length ≠ 0 := by
      simpa [List.length_eq_zero] using hne
    rw [h] at hm
    omega
  | a + 1, b + 1 =>
    have hdata : (candidate dir stem (a + 1)).data = (candidate dir stem (b + 1)).data := by
      rw [h]
    simp only [candidate, String.data_append, List.append_assoc] at hdata
    have h1 := List.append_cancel_left hdata
    have h2 := List.append_cancel_left h1
    have h3 := List.append_cancel_left h2
    have h4 := List.append_cancel_left h3
    have h5 : (natRepr (a + 1)).data = (natRepr (b + 1)).data :=
      List.append_cancel_right h4
    have : natRepr (a + 1) = natRepr (b + 1) := String.ext h5
    have := natRepr_injective this
    omega

theorem exists_freeCandidate (dir stem : String) (reserved disk : List String) :
    ∃ n, isFreeCandidate dir stem reserved disk n := by
  by_contra hcon
  push_neg at hcon
  have hmem : ∀ n, candidate dir stem n ∈ (reserved ++ disk).toFinset := by
    intro n
    have := hcon n
    unfold isFreeCandidate at this
    rw [List.mem_toFinset, List.mem_append]
    by_cases h1 : candidate dir stem n ∈ reserved
    · exact Or.inl h1
    · exact Or.inr (by tauto)
  set m := (reserved ++ disk).length with hm
  have hsub : (Finset.range (m + 1)).image (candidate dir stem)
      ⊆ (reserved ++ disk).toFinset := by
    intro x hx
    rw [Finset.mem_image] at hx
    obtain ⟨n, -, rfl⟩ := hx
    exact hmem n
  have hcard := Finset.card_le_card hsub
  rw [Finset.card_image_of_injective _ (candidate_injective dir stem),
    Finset.card_range] at hcard
  have := (reserved ++ disk).toFinset_card_le
  omega

/-- Model of `_get_unique_target_path` (lines 312-316): the first candidate
path, in the order `<stem>.jxl`, `<stem>-1.jxl`, `<stem>-2.jxl`, …, that is
neither in `reserved` nor in `disk`. -/
def getUniqueTargetPath (dir stem : String) (reserved disk : List String) : String :=
  candidate dir stem (Nat.find (exists_freeCandidate dir stem reserved disk))

theorem getUniqueTargetPath_free (dir stem : String) (reserved disk : List String) :
    getUniqueTargetPath dir stem reserved disk ∉ reserved ∧
      getUniqueTargetPath dir stem reserved disk ∉ disk :=
  Nat.find_spec (exists_freeCandidate dir stem reserved disk)

theorem getUniqueTargetPath_least (dir stem : String) (reserved disk : List String) :
    ∃ n, getUniqueTargetPath dir stem reserved disk = candidate dir stem n ∧
      isFreeCandidate dir stem reserved disk n ∧
      ∀ m < n, ¬ isFreeCandidate dir stem reserved disk m := by
  refine ⟨Nat.find (exists_freeCandidate dir stem reserved disk), rfl,
    Nat.find_spec (exists_freeCandidate dir stem reserved disk), ?_⟩
  intro m hm
  exact Nat.find_min (exists_freeCandidate dir stem reserved disk) hm

/-! ### Batch-build loop (`_start_conversion_session`, lines 326-334)

`files` maps a file index to the `(resolved target directory, stem)` pair
the resolver is invoked with for that index (lines 306-309 applied to
`self.files[idx]`).  The loop walks the selected indices in ascending
order, resolves a target path for each while accumulating the
`existing_targets_in_batch` set, and collects one task per index. -/

/-- Model of a task dict `{'idx': ..., 'target_path': ..., 'sanitize': ...}`
(line 333). -/
structure ConvTask where
  idx : Nat
  targetPath : String
  sanitize : Bool
deriving DecidableEq, Repr

/-- The task-building loop of `_start_conversion_session` (lines 327-333):
for each selected index, resolve a unique target path against the paths
claimed so far (`reserved`) and the disk, claim it, and emit the task. -/
def buildBatchTasks (files : Nat → String × String) (disk : List String)
    (isSanitizeRun : Bool) : List Nat → List String → List ConvTask
  | [], _ => []
  | idx :: rest, reserved =>
    let ds := files idx
    let t := getUniqueTargetPath ds.1 ds.2 reserved disk
    ⟨idx, t, isSanitizeRun⟩ ::
      buildBatchTasks files disk isSanitizeRun rest (t :: reserved)

theorem buildBatchTasks_free (files : Nat → String × String) (disk : List String)
    (isSan : Bool) :
    ∀ (idxs : List Nat) (reserved : List String),
      (∀ t ∈ buildBatchTasks files disk isSan idxs reserved,
        t.targetPath ∉ reserved ∧ t.targetPath ∉ disk) ∧
      ((buildBatchTasks files disk isSan idxs reserved).map ConvTask.targetPath).Nodup := by
  intro idxs
  induction idxs with
  | nil => intro reserved; simp [buildBatchTasks]
  | cons idx rest ih =>
    intro reserved
    simp only [buildBatchTasks, List.mem_cons, List.map_cons, List.nodup_cons]
    set ds := files idx
    set t := getUniqueTargetPath ds.1 ds.2 reserved disk with ht
    have hfree := getUniqueTargetPath_free ds.1 ds.2 reserved disk
    obtain ⟨ihmem, ihnodup⟩ := ih (t :: reserved)
    refine ⟨?_, ?_, ihnodup⟩
    · rintro task (rfl | htask)
      · exact hfree
      · obtain ⟨h1, h2⟩ := ihmem task htask
        exact ⟨fun hmem => h1 (List.mem_cons_of_mem _ hmem), h2⟩
    · intro hmem
      rw [List.mem_map] at hmem
      obtain ⟨task, htask, heq⟩ := hmem
      have := (ihmem task htask).1
      rw [heq] at this
      exact this (List.mem_cons_self _ _)

/-- C1.  Batch-wide output-path uniqueness plus the resolver's first-free
characterisation.  For any batch build over any selection the assigned
target paths are pairwise distinct, none is a path existing on disk at
build time, none is a path reserved before the build started, and the
resolver returns the first candidate `<stem>.jxl`, `<stem>-1.jxl`,
`<stem>-2.jxl`, … that is neither reserved in the current build nor
existing on disk. -/
theorem targetPaths_unique_and_first_free (files : Nat → String × String)
    (disk reserved : List String) (isSan : Bool) (idxs : List Nat) :
    (((buildBatchTasks files disk isSan idxs reserved).map ConvTask.targetPath).Nodup ∧
      ∀ t ∈ buildBatchTasks files disk isSan idxs reserved,
        t.targetPath ∉ disk ∧ t.targetPath ∉ reserved) ∧
    ∀ dir stem res, ∃ n,
      getUniqueTargetPath dir stem res disk = candidate dir stem n ∧
        isFreeCandidate dir stem res disk n ∧
        ∀ m < n, ¬ isFreeCandidate dir stem res disk m := by
  obtain ⟨hmem, hnodup⟩ := buildBatchTasks_free files disk isSan idxs reserved
  refine ⟨⟨hnodup, fun t ht => ⟨(hmem t ht).2, (hmem t ht).1⟩⟩, ?_⟩
  intro dir stem res
  exact getUniqueTargetPath_least dir stem res disk

/-! ### Byte-size formatting (`_format_bytes`, lines 164-168)

`size_bytes` enters as a Python int and is repeatedly divided by `1024`
with float division.  Division of a double by a power of two is exact, and
every integer below `2^53` is exactly representable; since the loop runs at
most five times starting from an integer below `1024^5 = 2^50` on the
non-raising branch, the float value is always exactly `size / 1024^n`,
modelled by `ℚ`.  Python's `f"{x:.1f}"` / `f"{x:.2f}"` round the (here
exact) value half-to-even at the last kept decimal. -/

/-- Rounding half-to-even of `q` scaled by `10^k`: the integer Python's
`:.kf` formatting keeps. -/
def roundHalfEven (t : ℚ) : ℤ :=
  let f : ℤ := ⌊t⌋
  let r : ℚ := t - f
  if 1 / 2 < r then f + 1
  else if r < 1 / 2 then f
  else if f % 2 = 0 then f else f + 1

/-- Decimal rendering of an integer (Python `str(int)` with sign). -/
def intRepr (n : ℤ) : String :=
  if n < 0 then "-" ++ natRepr (-n).toNat else natRepr n.toNat

/-- Model of Python `f"{x:.1f}"` on an exactly-represented value. -/
def format1 (q : ℚ) : String :=
  if q < 0 then "-" ++ format1Nonneg (-q) else format1Nonneg q
where
  format1Nonneg (q : ℚ) : String :=
    let n := (roundHalfEven (q * 10)).toNat
    natRepr (n / 10) ++ "." ++ natRepr (n % 10)

/-- Model of Python `f"{x:.2f}"` on an exactly-represented value. -/
def format2 (q : ℚ) : String :=
  if q < 0 then "-" ++ format2Nonneg (-q) else format2Nonneg q
where
  format2Nonneg (q : ℚ) : String :=
    let n := (roundHalfEven (q * 100)).toNat
    natRepr (n / 100) ++ "." ++
      (if n % 100 < 10 then "0" else "") ++ natRepr (n % 100)

/-- The `power_labels` dict at line 166: keys `0`-`4` only; `none` models a
`KeyError` on any other key. -/
def powerLabels (n : Nat) : Option String :=
  if n = 0 then some ""
  else if n = 1 then some "K"
  else if n = 2 then some "M"
  else if n = 3 then some "G"
  else if n = 4 then some "T"
  else none

/-- The `while size_bytes >= power and n < len(power_labels)` loop at line
167.  The `n < 5` conjunct bounds the loop at five iterations, so fuel `5`
reproduces it exactly; the fuel-0 case is never reached from `fbLoop 5 q 0`. -/
def fbLoop : Nat → ℚ → Nat → ℚ × Nat
  | 0, size, n => (size, n)
  | fuel + 1, size, n =>
    if 1024 ≤ size ∧ n < 5 then fbLoop fuel (size / 1024) (n + 1) else (size, n)

/-- Model of `_format_bytes` (lines 164-168).  `none` models the `KeyError`
raised by `power_labels[n]` when `n = 5`. -/
def formatBytes (size : ℤ) : Option String :=
  if size ≤ 0 then some "0B"
  else
    (powerLabels (fbLoop 5 (size : ℚ) 0).2).map
      (fun lab => format1 (fbLoop 5 (size : ℚ) 0).1 ++ lab ++ "B")

theorem fbLoop_counter_le (fuel : Nat) :
    ∀ (q : ℚ) (n : Nat), 1 ≤ fuel → q < 1024 ^ fuel →
      (fbLoop fuel q n).2 ≤ n + fuel - 1 := by
  induction fuel with
  | zero => intro q n h; omega
  | succ fuel ih =>
    intro q n _ hq
    rw [fbLoop]
    by_cases hcond : 1024 ≤ q ∧ n < 5
    · rw [if_pos hcond]
      have hfuel : 1 ≤ fuel := by
        by_contra hf
        have : fuel = 0 := by omega
        subst this
        norm_num at hq
        linarith [hcond.1]
      have hdiv : q / 1024 < 1024 ^ fuel := by
        rw [div_lt_iff (by norm_num : (0:ℚ) < 1024)]
        calc q < 1024 ^ (fuel + 1) := hq
        _ = 1024 ^ fuel * 1024 := by rw [pow_succ]
      have := ih (q / 1024) (n + 1) hfuel hdiv
      omega
    · rw [if_neg hcond]
      omega

theorem fbLoop_counter_hits_five (fuel : Nat) :
    ∀ (q : ℚ) (n : Nat), fuel + n = 5 → (1024 : ℚ) ^ fuel ≤ q →
      (fbLoop fuel q n).2 = 5 := by
  induction fuel with
  | zero => intro q n h _; simpa [fbLoop] using h
  | succ fuel ih =>
    intro q n hsum hq
    rw [fbLoop]
    have h1024 : (1024 : ℚ) ≤ q := by
      calc (1024 : ℚ) ≤ 1024 ^ (fuel + 1) :=
        le_self_pow (by norm_num) (Nat.succ_ne_zero fuel)
      _ ≤ q := hq
    rw [if_pos ⟨h1024, by omega⟩]
    refine ih (q / 1024) (n + 1) (by omega) ?_
    rw [le_div_iff (by norm_num : (0:ℚ) < 1024)]
    calc (1024 : ℚ) ^ fuel * 1024 = 1024 ^ (fuel + 1) := (pow_succ _ _).symm
    _ ≤ q := hq

/-- C10.  `_format_bytes` returns `"0B"` for every size at most `0`;
returns normally, with one of the suffixes `B`, `KB`, `MB`, `GB`, `TB`, for
every positive size strictly below `1024^5` bytes; and for every size of at
least `1024^5` bytes the unit counter reaches `5` and the label lookup
`power_labels[n]` raises `KeyError` (modelled by `none`). -/
theorem formatBytes_spec (size : ℤ) :
    (size ≤ 0 → formatBytes size = some "0B") ∧
    (0 < size → size < 1024 ^ 5 →
      ∃ s lab, formatBytes size = some (s ++ lab) ∧
        lab ∈ (["B", "KB", "MB", "GB", "TB"] : List String)) ∧
    (1024 ^ 5 ≤ size → formatBytes size = none) := by
  refine ⟨fun h => by simp [formatBytes, h], ?_, ?_⟩
  · intro hpos hlt
    have hq : (size : ℚ) < 1024 ^ 5 := by
      have : ((1024 ^ 5 : ℤ) : ℚ) = 1024 ^ 5 := by push_cast; ring
      rw [← this]
      exact_mod_cast hlt
    have hle := fbLoop_counter_le 5 (size : ℚ) 0 (by norm_num) hq
    rw [formatBytes, if_neg (by omega)]
    set p := fbLoop 5 (size : ℚ) 0 with hp
    have hn : p.2 ≤ 4 := by omega
    have : ∃ plab, powerLabels p.2 = some plab ∧
        plab ∈ (["", "K", "M", "G", "T"] : List String) := by
      interval_cases h : p.2 <;> simp [powerLabels]
    obtain ⟨plab, hplab, hmem⟩ := this
    refine ⟨format1 p.1, plab ++ "B", ?_, ?_⟩
    · rw [hplab]
      simp [String.append_assoc]
    · fin_cases hmem <;> decide
  · intro hge
    have hq : (1024 : ℚ) ^ 5 ≤ (size : ℚ) := by
      have : ((1024 ^ 5 : ℤ) : ℚ) = 1024 ^ 5 := by push_cast; ring
      rw [← this]
      exact_mod_cast hge
    have h5 := fbLoop_counter_hits_five 5 (size : ℚ) 0 (by omega) hq
    have hpos : (0:ℤ) < size := lt_of_lt_of_le (by positivity) hge
    rw [formatBytes, if_neg (by omega), h5]
    simp [powerLabels]

/-- Witness for C10 at concrete sizes: `0` bytes formats as `"0B"`, a
`2048`-byte size formats normally with a listed suffix, and a `1024^5`-byte
size hits the raising label lookup. -/
theorem formatBytes_spec_witness :
    formatBytes 0 = some "0B" ∧
    (∃ s lab, formatBytes 2048 = some (s ++ lab) ∧
      lab ∈ (["B", "KB", "MB", "GB", "TB"] : List String)) ∧
    formatBytes (1024 ^ 5) = none :=
  ⟨(formatBytes_spec 0).1 (by decide),
   (formatBytes_spec 2048).2.1 (by decide) (by decide),
   (formatBytes_spec (1024 ^ 5)).2.2 (by decide)⟩

/-! ### Aggregator and session controller state

The fields of `JxlConverterTUI` that the batch pipeline touches
(lines 81-91), with the filesystem frozen as `disk`, `time.time()` passed
in as a `ℚ` parameter, and the external binaries' availability as flags.
`files` maps each file index to the `(resolved target directory, stem)`
pair (see `buildBatchTasks`); `statuses` models the per-index status dict
(`none` for an index absent from the dict). -/

/-- One record of `self.statuses` (created at line 178, extended by
`target_path` at line 332 and by size keys from status updates). -/
structure StatusRecord where
  status : String
  message : String
  infoStr : String
  targetPath : Option String
  sizeBefore : Option Nat
  sizeAfter : Option Nat
deriving DecidableEq, Repr

/-- The initial record `{'status': 'PENDING', 'message': '', 'info_str': ''}` of line 178. -/
def initStatusRecord : StatusRecord :=
  { status := "PENDING", message := "", infoStr := "", targetPath := none,
    sizeBefore := none, sizeAfter := none }

/-- A message on `status_queue` as put by `_update_status` (lines 111-112):
`idx`, `status`, and the optional keyword arguments actually used. -/
structure StatusMsg where
  idx : Nat
  status : String
  message : Option String
  sizeBefore : Option Nat
  sizeAfter : Option Nat
deriving DecidableEq, Repr

/-- Model of `self.statuses[idx].update(update)` (line 119): keys present in the
message overwrite the record, absent keys are preserved. -/
def applyMsg (r : StatusRecord) (m : StatusMsg) : StatusRecord :=
  { r with
    status := m.status,
    message := match m.message with | some s => s | none => r.message,
    sizeBefore := match m.sizeBefore with | some n => some n | none => r.sizeBefore,
    sizeAfter := match m.sizeAfter with | some n => some n | none => r.sizeAfter }

/-- The mutable state of `JxlConverterTUI` used by the conversion
pipeline. -/
structure TUIState where
  files : Nat → String × String
  disk : List String
  selected : List Nat
  statuses : Nat → Option StatusRecord
  failedIndices : List Nat
  isConverting : Bool
  successCount : Nat
  failedCount : Nat
  totalBytesBefore : Nat
  totalBytesAfter : Nat
  startTime : ℚ
  conversionQueue : List ConvTask
  statusQueue : List StatusMsg
  lastConversionSummary : String
  statusMessage : String
  stopThreadSet : Bool
  cjxlAvailable : Bool
  magickAvailable : Bool
  deleteOriginals : Bool

/-- The success `info_str` (lines 125-129): formatted byte savings plus a
one-decimal percentage of `size_before`; computed only when both sizes are
truthy.  `none` models the `KeyError` that `_format_bytes` raises for a
savings value of at least `1024^5`. -/
def successInfoText (bBefore bAfter : Nat) : Option String :=
  (formatBytes ((bBefore : ℤ) - (bAfter : ℤ))).map fun fb =>
    fb ++ " saved (" ++
      format1 (if 0 < bBefore then
        (((bBefore : ℚ) - (bAfter : ℚ)) / (bBefore : ℚ)) * 100 else 0) ++ "%)"

/-- Python `sorted(list(selected))` (line 328), via insertion sort. -/
def insertSorted (x : Nat) : List Nat → List Nat
  | [] => [x]
  | y :: ys => if x ≤ y then x :: y :: ys else y :: insertSorted x ys

/-- Ascending enumeration of the selected indices. -/
def sortNat (l : List Nat) : List Nat := l.foldr insertSorted []

/-- Processing of one drained status update (lines 117-133): merge the
message into the record, bump the batch counters, and recompute
`info_str`.  `Except.error ()` models the uncaught `KeyError` from
`_format_bytes` on the success path. -/
def processUpdate (st : TUIState) (m : StatusMsg) : Except Unit TUIState :=
  match st.statuses m.idx with
  | none => .ok st
  | some r =>
    let r1 := applyMsg r m
    if m.status = "SUCCESS" then
      let bBefore := m.sizeBefore.getD 0
      let bAfter := m.sizeAfter.getD 0
      if bBefore ≠ 0 ∧ bAfter ≠ 0 then
        match successInfoText bBefore bAfter with
        | none => .error ()
        | some info =>
          .ok { st with
            successCount := st.successCount + 1,
            totalBytesBefore := st.totalBytesBefore + bBefore,
            totalBytesAfter := st.totalBytesAfter + bAfter,
            statuses := fun i =>
              if i = m.idx then some { r1 with infoStr := info } else st.statuses i }
      else
        .ok { st with
          successCount := st.successCount + 1,
          statuses := fun i =>
            if i = m.idx then some { r1 with infoStr := "" } else st.statuses i }
    else if m.status = "FAILED" then
      .ok { st with
        failedCount := st.failedCount + 1,
        failedIndices :=
          if m.idx ∈ st.failedIndices then st.failedIndices else m.idx :: st.failedIndices,
        statuses := fun i =>
          if i = m.idx then
            some { r1 with infoStr := m.message.getD "Unknown Error" } else st.statuses i }
    else
      .ok { st with
        statuses := fun i =>
          if i = m.idx then some { r1 with infoStr := "" } else st.statuses i }

/-- The drain loop at lines 116-133: pop every queued message in FIFO
order and fold it into the state. -/
def drainStatusQueue (st : TUIState) : Except Unit TUIState :=
  List.foldlM processUpdate { st with statusQueue := [] } st.statusQueue

/-- The batch-completion check and summary of `_process_status_queue`
(lines 135-149).  Returns the updated state and the `just_finished` flag.
`Except.error ()` models an uncaught `KeyError` from `_format_bytes`. -/
def processStatusQueue (now : ℚ) (st : TUIState) : Except Unit (TUIState × Bool) := do
  let st1 ← drainStatusQueue st
  if st1.isConverting ∧ st1.conversionQueue = [] then
    let totalProcessed := st1.successCount + st1.failedCount
    if st1.selected.length ≤ totalProcessed then
      let elapsed := now - st1.startTime
      match formatBytes ((st1.totalBytesBefore : ℤ) - (st1.totalBytesAfter : ℤ)) with
      | none => .error ()
      | some savingsStr =>
        let summary :=
          if 0 < st1.totalBytesBefore then
            "Finished: " ++ natRepr totalProcessed ++ " files | Total Saved: " ++
              savingsStr ++ " (" ++
              format1 ((((st1.totalBytesBefore : ℚ) - (st1.totalBytesAfter : ℚ)) /
                (st1.totalBytesBefore : ℚ)) * 100) ++ "%) | Time: " ++
              format2 elapsed ++ "s"
          else
            "Finished: " ++ natRepr totalProcessed ++ " files | Time: " ++
              format2 elapsed ++ "s"
        .ok ({ st1 with
          isConverting := false,
          statusMessage := "Finished " ++ natRepr totalProcessed ++ " files in " ++
            format2 elapsed ++ "s.",
          lastConversionSummary := summary }, true)
    else
      .ok (st1, false)
  else
    .ok (st1, false)

/-- Model of `self.statuses[idx]['target_path'] = target_path` for every built task
(line 332; every selected index has a status record, created at line 178). -/
def recordTargetPaths (st : TUIState) : List ConvTask → TUIState
  | [] => st
  | t :: rest =>
    recordTargetPaths
      { st with statuses := fun i =>
          if i = t.idx then
            (st.statuses i).map (fun r => { r with targetPath := some t.targetPath })
          else st.statuses i }
      rest

/-- The enqueue loop at lines 340-344: append the task to the FIFO queue,
flip its status to `QUEUED`, and drop its index from `failed_indices`. -/
def enqueueTasks (st : TUIState) : List ConvTask → TUIState
  | [] => st
  | t :: rest =>
    enqueueTasks
      { st with
        conversionQueue := st.conversionQueue ++ [t],
        statuses := fun i =>
          if i = t.idx then
            (st.statuses i).map (fun r => { r with status := "QUEUED" })
          else st.statuses i,
        failedIndices := st.failedIndices.filter (fun j => j ≠ t.idx) }
      rest

/-- Model of `_start_conversion_session` (lines 318-350).  `confirmDelete`
is the answer of the delete-originals confirmation dialog; the worker
thread spawn (lines 347-350) is represented by clearing `stop_thread`.
Directory creation is assumed to succeed here; its failure path is
modelled by `buildBatchTasksExc`. -/
def startConversionSession (now : ℚ) (confirmDelete : Bool) (isSanitizeRun : Bool)
    (st : TUIState) : TUIState :=
  if st.isConverting then
    { st with statusMessage := "A conversion is already in progress." }
  else if st.selected = [] then
    { st with statusMessage := "No files selected to convert." }
  else if ¬ st.cjxlAvailable then
    { st with statusMessage := "cjxl command not found in PATH." }
  else if st.deleteOriginals ∧ ¬ isSanitizeRun ∧ ¬ confirmDelete then
    { st with statusMessage := "Conversion cancelled." }
  else
    let tasks := buildBatchTasks st.files st.disk isSanitizeRun (sortNat st.selected) []
    let stA := recordTargetPaths st tasks
    let stB :=
      if ¬ isSanitizeRun then
        { stA with
          isConverting := true, startTime := now,
          successCount := 0, failedCount := 0,
          totalBytesBefore := 0, totalBytesAfter := 0 }
      else stA
    enqueueTasks { stB with stopThreadSet := false } tasks

/-- Model of `_prompt_for_sanitize` (lines 154-162): if ImageMagick is
available and the user accepts, set the selection to the failed indices
and start a sanitize-retry session. -/
def promptForSanitize (now : ℚ) (userAccepts : Bool) (st : TUIState) : TUIState :=
  if ¬ st.magickAvailable then
    { st with statusMessage :=
        "Some files failed. Install ImageMagick to enable sanitize/retry." }
  else if userAccepts then
    startConversionSession now true true
      { st with
        selected := st.failedIndices,
        statusMessage := "Re-queueing failed files for sanitized conversion..." }
  else st

/-! ### C2: batch activity, counter resets, and failed-index clearing -/

theorem processUpdate_fields {st st' : TUIState} {m : StatusMsg}
    (h : processUpdate st m = .ok st') :
    st'.isConverting = st.isConverting ∧ st'.conversionQueue = st.conversionQueue ∧
      st'.selected = st.selected ∧ st'.startTime = st.startTime ∧
      st'.statusQueue = st.statusQueue := by
  unfold processUpdate at h
  split at h
  · cases h; exact ⟨rfl, rfl, rfl, rfl, rfl⟩
  · split at h
    · simp only [] at h
      split at h
      · split at h
        · cases h
        · cases h; exact ⟨rfl, rfl, rfl, rfl, rfl⟩
      · cases h; exact ⟨rfl, rfl, rfl, rfl, rfl⟩
    · split at h
      · cases h; exact ⟨rfl, rfl, rfl, rfl, rfl⟩
      · cases h; exact ⟨rfl, rfl, rfl, rfl, rfl⟩

theorem drainStatusQueue_fields {st st' : TUIState}
    (h : drainStatusQueue st = .ok st') :
    st'.isConverting = st.isConverting ∧ st'.conversionQueue = st.conversionQueue ∧
      st'.selected = st.selected ∧ st'.startTime = st.startTime ∧
      st'.statusQueue = [] := by
  unfold drainStatusQueue at h
  suffices hgen : ∀ (l : List StatusMsg) (s s' : TUIState),
      List.foldlM processUpdate s l = .ok s' →
      s'.isConverting = s.isConverting ∧ s'.conversionQueue = s.conversionQueue ∧
        s'.selected = s.selected ∧ s'.startTime = s.startTime ∧
        s'.statusQueue = s.statusQueue by
    have := hgen st.statusQueue { st with statusQueue := [] } st' h
    simpa using this
  intro l
  induction l with
  | nil =>
    intro s s' h
    cases h
    exact ⟨rfl, rfl, rfl, rfl, rfl⟩
  | cons m rest ih =>
    intro s s' h
    rw [List.foldlM_cons] at h
    cases hstep : processUpdate s m with
    | error e => rw [hstep] at h; cases h
    | ok s1 =>
      rw [hstep] at h
      have h1 := processUpdate_fields hstep
      have h2 := ih s1 s' h
      exact ⟨h2.1.trans h1.1, h2.2.1.trans h1.2.1, h2.2.2.1.trans h1.2.2.1,
        h2.2.2.2.1.trans h1.2.2.2.1, h2.2.2.2.2.trans h1.2.2.2.2⟩

@[simp]
theorem recordTargetPaths_isConverting (ts : List ConvTask) (st : TUIState) :
    (recordTargetPaths st ts).isConverting = st.isConverting := by
  induction ts generalizing st with
  | nil => rfl
  | cons t rest ih => rw [recordTargetPaths]; exact ih _

@[simp]
theorem recordTargetPaths_successCount (ts : List ConvTask) (st : TUIState) :
    (recordTargetPaths st ts).successCount = st.successCount := by
  induction ts generalizing st with
  | nil => rfl
  | cons t rest ih => rw [recordTargetPaths]; exact ih _

@[simp]
theorem recordTargetPaths_failedCount (ts : List ConvTask) (st : TUIState) :
    (recordTargetPaths st ts).failedCount = st.failedCount := by
  induction ts generalizing st with
  | nil => rfl
  | cons t rest ih => rw [recordTargetPaths]; exact ih _

@[simp]
theorem recordTargetPaths_totalBytesBefore (ts : List ConvTask) (st : TUIState) :
    (recordTargetPaths st ts).totalBytesBefore = st.totalBytesBefore := by
  induction ts generalizing st with
  | nil => rfl
  | cons t rest ih => rw [recordTargetPaths]; exact ih _

@[simp]
theorem recordTargetPaths_totalBytesAfter (ts : List ConvTask) (st : TUIState) :
    (recordTargetPaths st ts).totalBytesAfter = st.totalBytesAfter := by
  induction ts generalizing st with
  | nil => rfl
  | cons t rest ih => rw [recordTargetPaths]; exact ih _

@[simp]
theorem recordTargetPaths_startTime (ts : List ConvTask) (st : TUIState) :
    (recordTargetPaths st ts).startTime = st.startTime := by
  induction ts generalizing st with
  | nil => rfl
  | cons t rest ih => rw [recordTargetPaths]; exact ih _

@[simp]
theorem recordTargetPaths_conversionQueue (ts : List ConvTask) (st : TUIState) :
    (recordTargetPaths st ts).conversionQueue = st.conversionQueue := by
  induction ts generalizing st with
  | nil => rfl
  | cons t rest ih => rw [recordTargetPaths]; exact ih _

@[simp]
theorem recordTargetPaths_failedIndices (ts : List ConvTask) (st : TUIState) :
    (recordTargetPaths st ts).failedIndices = st.failedIndices := by
  induction ts generalizing st with
  | nil => rfl
  | cons t rest ih => rw [recordTargetPaths]; exact ih _

@[simp]
theorem enqueueTasks_isConverting (ts : List ConvTask) (st : TUIState) :
    (enqueueTasks st ts).isConverting = st.isConverting := by
  induction ts generalizing st with
  | nil => rfl
  | cons t rest ih => rw [enqueueTasks]; exact ih _

@[simp]
theorem enqueueTasks_successCount (ts : List ConvTask) (st : TUIState) :
    (enqueueTasks st ts).successCount = st.successCount := by
  induction ts generalizing st with
  | nil => rfl
  | cons t rest ih => rw [enqueueTasks]; exact ih _

@[simp]
theorem enqueueTasks_failedCount (ts : List ConvTask) (st : TUIState) :
    (enqueueTasks st ts).failedCount = st.failedCount := by
  induction ts generalizing st with
  | nil => rfl
  | cons t rest ih => rw [enqueueTasks]; exact ih _

@[simp]
theorem enqueueTasks_totalBytesBefore (ts : List ConvTask) (st : TUIState) :
    (enqueueTasks st ts).totalBytesBefore = st.totalBytesBefore := by
  induction ts generalizing st with
  | nil => rfl
  | cons t rest ih => rw [enqueueTasks]; exact ih _

@[simp]
theorem enqueueTasks_totalBytesAfter (ts : List ConvTask) (st : TUIState) :
    (enqueueTasks st ts).totalBytesAfter = st.totalBytesAfter := by
  induction ts generalizing st with
  | nil => rfl
  | cons t rest ih => rw [enqueueTasks]; exact ih _

@[simp]
theorem enqueueTasks_startTime (ts : List ConvTask) (st : TUIState) :
    (enqueueTasks st ts).startTime = st.startTime := by
  induction ts generalizing st with
  | nil => rfl
  | cons t rest ih => rw [enqueueTasks]; exact ih _

@[simp]
theorem enqueueTasks_queue :
    ∀ (ts : List ConvTask) (st : TUIState),
      (enqueueTasks st ts).conversionQueue = st.conversionQueue ++ ts := by
  intro ts
  induction ts with
  | nil => intro st; simp [enqueueTasks]
  | cons t rest ih =>
    intro st
    rw [enqueueTasks, ih]
    simp

theorem enqueueTasks_failed :
    ∀ (ts : List ConvTask) (st : TUIState) (x : Nat),
      x ∈ (enqueueTasks st ts).failedIndices →
        x ∈ st.failedIndices ∧ ∀ t ∈ ts, x ≠ t.idx := by
  intro ts
  induction ts with
  | nil => intro st x h; simpa [enqueueTasks] using h
  | cons t rest ih =>
    intro st x h
    rw [enqueueTasks] at h
    obtain ⟨hmem, hrest⟩ := ih _ x h
    simp only [List.mem_filter, decide_eq_true_eq] at hmem
    refine ⟨hmem.1, ?_⟩
    intro u hu
    rcases List.mem_cons.mp hu with rfl | hu'
    · exact hmem.2
    · exact hrest u hu'

/-- C2 (amended).  Starting a fresh batch sets the active flag, resets the
session counters and the start time, enqueues the built tasks, and clears
every enqueued index from `failed_indices`; starting a sanitize-retry
batch enqueues and clears failed indices the same way but leaves the
active flag, the counters and the start time unchanged (in particular the
flag stays `false`, since a retry is only offered after completion cleared
it); the active flag is cleared exactly when the aggregator detects
completion, which can only happen for a batch whose flag was set. -/
theorem session_start_reset_and_completion (st : TUIState) (now : ℚ)
    (confirmDelete : Bool) :
    (st.isConverting = false → st.selected ≠ [] → st.cjxlAvailable = true →
      (st.deleteOriginals = false ∨ confirmDelete = true) →
      (startConversionSession now confirmDelete false st).isConverting = true ∧
      (startConversionSession now confirmDelete false st).successCount = 0 ∧
      (startConversionSession now confirmDelete false st).failedCount = 0 ∧
      (startConversionSession now confirmDelete false st).totalBytesBefore = 0 ∧
      (startConversionSession now confirmDelete false st).totalBytesAfter = 0 ∧
      (startConversionSession now confirmDelete false st).startTime = now ∧
      (startConversionSession now confirmDelete false st).conversionQueue =
        st.conversionQueue ++ buildBatchTasks st.files st.disk false (sortNat st.selected) [] ∧
      ∀ t ∈ buildBatchTasks st.files st.disk false (sortNat st.selected) [],
        t.idx ∉ (startConversionSession now confirmDelete false st).failedIndices) ∧
    (st.isConverting = false → st.selected ≠ [] → st.cjxlAvailable = true →
      (startConversionSession now confirmDelete true st).isConverting = false ∧
      (startConversionSession now confirmDelete true st).successCount = st.successCount ∧
      (startConversionSession now confirmDelete true st).failedCount = st.failedCount ∧
      (startConversionSession now confirmDelete true st).totalBytesBefore = st.totalBytesBefore ∧
      (startConversionSession now confirmDelete true st).totalBytesAfter = st.totalBytesAfter ∧
      (startConversionSession now confirmDelete true st).startTime = st.startTime ∧
      (startConversionSession now confirmDelete true st).conversionQueue =
        st.conversionQueue ++ buildBatchTasks st.files st.disk true (sortNat st.selected) [] ∧
      ∀ t ∈ buildBatchTasks st.files st.disk true (sortNat st.selected) [],
        t.idx ∉ (startConversionSession now confirmDelete true st).failedIndices) ∧
    (∀ (st2 : TUIState) (just : Bool),
      processStatusQueue now st = .ok (st2, just) →
      (just = true → st2.isConverting = false ∧ st.isConverting = true) ∧
      (just = false → st2.isConverting = st.isConverting)) := by
  refine ⟨?_, ?_, ?_⟩
  · intro hconv hsel hcjxl hdel
    rw [startConversionSession]
    rw [if_neg (by simp [hconv]), if_neg hsel, if_neg (by simp [hcjxl]),
      if_neg (by rcases hdel with h | h <;> simp [h])]
    refine ⟨by simp, by simp, by simp, by simp, by simp, by simp, by simp, ?_⟩
    · intro t ht hmem
      exact (enqueueTasks_failed _ _ t.idx hmem).2 t ht rfl
  · intro hconv hsel hcjxl
    rw [startConversionSession]
    rw [if_neg (by simp [hconv]), if_neg hsel, if_neg (by simp [hcjxl]),
      if_neg (by simp)]
    refine ⟨by simp [hconv], by simp, by simp, by simp, by simp, by simp, by simp, ?_⟩
    · intro t ht hmem
      exact (enqueueTasks_failed _ _ t.idx hmem).2 t ht rfl
  · intro st2 just h
    unfold processStatusQueue at h
    cases hdrain : drainStatusQueue st with
    | error e =>
      rw [hdrain] at h
      cases h
    | ok st1 =>
      rw [hdrain] at h
      have hfields := drainStatusQueue_fields hdrain
      simp only [bind, Except.bind] at h
      by_cases hcond : st1.isConverting ∧ st1.conversionQueue = []
      · rw [if_pos hcond] at h
        split at h
        · split at h
          · cases h
          · cases h
            exact ⟨fun _ => ⟨rfl, hfields.1 ▸ hcond.1⟩, fun hfalse => nomatch hfalse⟩
        · rw [Except.ok.injEq, Prod.mk.injEq] at h
          obtain ⟨h2, hj⟩ := h
          subst hj
          exact ⟨(fun htrue => nomatch htrue), fun _ => h2 ▸ hfields.1⟩
      · rw [if_neg hcond] at h
        rw [Except.ok.injEq, Prod.mk.injEq] at h
        obtain ⟨h2, hj⟩ := h
        subst hj
        exact ⟨(fun htrue => nomatch htrue), fun _ => h2 ▸ hfields.1⟩

/-- A completed two-file batch with one success and one failure: exactly
the state from which `_process_status_queue` (lines 135-152) offers the
sanitize retry, completion having already set `is_converting = False` at
line 138. -/
def retryCexState : TUIState :=
  { files := fun _ => ("out", "a"),
    disk := [],
    selected := [0, 1],
    statuses := fun i => if i ≤ 1 then some initStatusRecord else none,
    failedIndices := [1],
    isConverting := false,
    successCount := 1,
    failedCount := 1,
    totalBytesBefore := 0,
    totalBytesAfter := 0,
    startTime := 0,
    conversionQueue := [],
    statusQueue := [],
    lastConversionSummary := "",
    statusMessage := "",
    stopThreadSet := false,
    cjxlAvailable := true,
    magickAvailable := true,
    deleteOriginals := false }

/-- C2 counterexample.  Accepting the sanitize-retry prompt from a
completed batch enqueues a task, yet `is_converting` stays `false` (line
336 skips the reset block for `is_sanitize_run=True` and nothing else sets
the flag), so the retry batch is never marked active; moreover the running
counters (`successCount + failedCount = 2`) already exceed the retry's
`totalSelected = 1` at enqueue time and only grow, so the claimed
"active until `successCount + failedCount == totalSelected`" condition can
never fire for it. -/
theorem retry_batch_inactive_cex :
    (promptForSanitize 0 true retryCexState).conversionQueue.length = 1 ∧
    (promptForSanitize 0 true retryCexState).isConverting = false ∧
    (promptForSanitize 0 true retryCexState).successCount +
      (promptForSanitize 0 true retryCexState).failedCount = 2 ∧
    (promptForSanitize 0 true retryCexState).selected.length = 1 ∧
    (promptForSanitize 0 true retryCexState).failedIndices = [] := by
  refine ⟨?_, rfl, rfl, rfl, rfl⟩
  rfl

/-- Witness for `session_start_reset_and_completion` at a concrete state. -/
theorem session_start_reset_and_completion_witness :
    (startConversionSession 0 false false retryCexState).isConverting = true ∧
    (startConversionSession 0 false false retryCexState).successCount = 0 ∧
    (startConversionSession 0 false true retryCexState).successCount =
      retryCexState.successCount ∧
    ∃ st2, processStatusQueue 0 retryCexState = .ok (st2, false) ∧
      st2.isConverting = retryCexState.isConverting := by
  have h := session_start_reset_and_completion retryCexState 0 false
  have hfresh := h.1 rfl (by decide) rfl (Or.inl rfl)
  have hretry := h.2.1 rfl (by decide) rfl
  have hproc : processStatusQueue 0 retryCexState =
      .ok ({ retryCexState with statusQueue := [] }, false) := rfl
  exact ⟨hfresh.1, hfresh.2.1, hretry.2.1,
    ⟨_, hproc, (h.2.2 _ false hproc).2 rfl⟩⟩

/-! ### C5: success `info_str` formatting -/

theorem floor_eval {q : ℚ} {n : ℤ} (h₁ : (n : ℚ) ≤ q) (h₂ : q < (n : ℚ) + 1) :
    ⌊q⌋ = n :=
  Int.floor_eq_iff.mpr ⟨h₁, by exact_mod_cast h₂⟩

theorem fbLoop_200000 : fbLoop 5 (200000 : ℚ) 0 = (200000 / 1024, 1) := by
  rw [fbLoop, if_pos (by norm_num), fbLoop, if_neg (by norm_num)]

theorem roundHalfEven_eval {t : ℚ} {n : ℤ} (hf : ⌊t⌋ = n)
    (hr : t - (n : ℚ) < 1 / 2) : roundHalfEven t = n := by
  simp only [roundHalfEven, hf]
  rw [if_neg (by linarith), if_pos hr]

theorem format1_195_3125 : format1 ((200000 : ℚ) / 1024) = "195.3" := by
  have hf : (⌊(200000 : ℚ) / 1024 * 10⌋ : ℤ) = 1953 :=
    floor_eval (by norm_num) (by norm_num)
  have hr : (200000 : ℚ) / 1024 * 10 - ((1953 : ℤ) : ℚ) < 1 / 2 := by
    push_cast
    norm_num
  rw [format1, if_neg (by norm_num), format1.format1Nonneg,
    roundHalfEven_eval hf hr]
  decide

theorem formatBytes_200000 : formatBytes 200000 = some "195.3KB" := by
  rw [formatBytes, if_neg (by norm_num)]
  rw [show ((200000 : ℤ) : ℚ) = 200000 by norm_num]
  rw [fbLoop_200000]
  show some (format1 ((200000 : ℚ) / 1024) ++ "K" ++ "B") = some "195.3KB"
  rw [format1_195_3125]
  decide

theorem format1_40 : format1 (40 : ℚ) = "40.0" := by
  have hf : (⌊(40 : ℚ) * 10⌋ : ℤ) = 400 := floor_eval (by norm_num) (by norm_num)
  have hr : (40 : ℚ) * 10 - ((400 : ℤ) : ℚ) < 1 / 2 := by
    push_cast
    norm_num
  rw [format1, if_neg (by norm_num), format1.format1Nonneg,
    roundHalfEven_eval hf hr]
  decide

theorem successInfoText_500KB : successInfoText 500000 300000 =
    some "195.3KB saved (40.0%)" := by
  rw [successInfoText]
  rw [show ((500000 : ℕ) : ℤ) - ((300000 : ℕ) : ℤ) = 200000 by norm_num]
  rw [formatBytes_200000]
  rw [show (if 0 < (500000 : ℕ) then
      ((((500000 : ℕ) : ℚ) - ((300000 : ℕ) : ℚ)) / ((500000 : ℕ) : ℚ)) * 100
      else 0) = (40 : ℚ) by rw [if_pos (by norm_num)]; norm_num]
  rw [format1_40]
  rfl

/-- C5 counterexample.  For a 500,000-byte input converted to a
300,000-byte output (the only reading of "500KB"/"300KB" under which the
savings format to `195.3KB`), the aggregator's `info_str` is
`"195.3KB saved (40.0%)"`: the percentage is `savings / size_before * 100
= 40.0`, not the claimed `39.1` (which is `195.3125 / 500`, mixing KiB
and kB units).  Under the KiB reading (512,000 → 307,200 bytes) the string
would instead be `"200.0KB saved (40.0%)"`; no reading yields the claimed
string. -/
theorem success_info_pct_cex :
    successInfoText 500000 300000 = some "195.3KB saved (40.0%)" ∧
    ("195.3KB saved (40.0%)" : String) ≠ "195.3KB saved (39.1%)" :=
  ⟨successInfoText_500KB, by decide⟩

/-- C5 (amended).  Applying a `SUCCESS` message carrying nonzero
`size_before` and `size_after` sets `info_str` to the formatted byte
savings with a one-decimal percentage of `size_before`, bumps the success
counter and the byte totals; in particular a 500,000-byte input with a
300,000-byte output yields `"195.3KB saved (40.0%)"`. -/
theorem aggregator_success_infoStr (st : TUIState) (m : StatusMsg)
    (r : StatusRecord) (b a : Nat) (s : String)
    (hst : st.statuses m.idx = some r) (hm : m.status = "SUCCESS")
    (hb : m.sizeBefore = some b) (ha : m.sizeAfter = some a)
    (hb0 : b ≠ 0) (ha0 : a ≠ 0)
    (hinfo : successInfoText b a = some s) :
    (∃ st', processUpdate st m = .ok st' ∧
      st'.statuses m.idx = some { applyMsg r m with infoStr := s } ∧
      st'.successCount = st.successCount + 1 ∧
      st'.totalBytesBefore = st.totalBytesBefore + b ∧
      st'.totalBytesAfter = st.totalBytesAfter + a) ∧
    successInfoText 500000 300000 = some "195.3KB saved (40.0%)" := by
  refine ⟨?_, successInfoText_500KB⟩
  unfold processUpdate
  rw [hst]
  simp only [hm, if_pos, hb, ha, Option.getD_some]
  rw [if_pos ⟨hb0, ha0⟩, hinfo]
  refine ⟨_, rfl, ?_, rfl, rfl, rfl⟩
  simp

/-- Concrete state and message for the `aggregator_success_infoStr`
witness. -/
def c5State : TUIState :=
  { retryCexState with successCount := 0, failedCount := 0, failedIndices := [] }

/-- The `SUCCESS` message of the 500,000 → 300,000 bytes scenario. -/
def c5Msg : StatusMsg :=
  { idx := 0, status := "SUCCESS", message := none,
    sizeBefore := some 500000, sizeAfter := some 300000 }

/-- Witness for `aggregator_success_infoStr` on the concrete scenario. -/
theorem aggregator_success_infoStr_witness :
    ∃ st', processUpdate c5State c5Msg = .ok st' ∧
      st'.statuses 0 =
        some { applyMsg initStatusRecord c5Msg with
                infoStr := "195.3KB saved (40.0%)" } ∧
      st'.successCount = c5State.successCount + 1 ∧
      st'.totalBytesBefore = c5State.totalBytesBefore + 500000 ∧
      st'.totalBytesAfter = c5State.totalBytesAfter + 300000 :=
  (aggregator_success_infoStr c5State c5Msg initStatusRecord 500000 300000
    "195.3KB saved (40.0%)" rfl rfl rfl rfl (by decide) (by decide)
    successInfoText_500KB).1

/-! ### C3: primary-encoder invocations (`conversion_worker`, lines 376-394) -/

/-- The shared command prefix `cmd` built at line 376 (`src` is
`source_file_for_cjxl`). -/
def baseCmd (cjxl src tgt : String) (effort : Nat) : List String :=
  [cjxl, src, tgt, "--effort", natRepr effort]

/-- The sequence of primary-encoder invocations the worker issues for one
task (lines 377-394): for a JPEG-suffixed input on a non-sanitize run, the
lossless command, followed by the quality fallback (line 386) exactly when
the lossless invocation exits nonzero; otherwise the single
`--lossless_jpeg 0` quality command (line 391). -/
def encodeCommands (cjxl src tgt : String) (effort quality : Nat)
    (isJpeg useSanitize : Bool) (losslessRet : Nat) : List (List String) :=
  if isJpeg ∧ ¬ useSanitize then
    if losslessRet ≠ 0 then
      [baseCmd cjxl src tgt effort ++ ["--lossless_jpeg", "1", "--quiet"],
       baseCmd cjxl src tgt effort ++ ["-q", natRepr quality, "--quiet"]]
    else
      [baseCmd cjxl src tgt effort ++ ["--lossless_jpeg", "1", "--quiet"]]
  else
    [baseCmd cjxl src tgt effort ++
      ["--lossless_jpeg", "0", "-q", natRepr quality, "--quiet"]]

/-- The lossless form named by the claim:
`encoder <in> <out> --effort <e> --lossless_jpeg 1 --quiet`. -/
def losslessForm (cjxl src tgt : String) (effort : Nat) : List String :=
  [cjxl, src, tgt, "--effort", natRepr effort, "--lossless_jpeg", "1", "--quiet"]

/-- The quality form named by the claim:
`encoder <in> <out> --effort <e> --lossless_jpeg 0 -q <q> --quiet`. -/
def qualityForm (cjxl src tgt : String) (effort quality : Nat) : List String :=
  [cjxl, src, tgt, "--effort", natRepr effort, "--lossless_jpeg", "0", "-q",
    natRepr quality, "--quiet"]

/-- The fallback form actually issued at line 386: the `--lossless_jpeg`
flag is absent. -/
def fallbackForm (cjxl src tgt : String) (effort quality : Nat) : List String :=
  [cjxl, src, tgt, "--effort", natRepr effort, "-q", natRepr quality, "--quiet"]

/-- C3 counterexample.  For a JPEG input on a fresh batch whose lossless
attempt fails, the second invocation is the fallback form without
`--lossless_jpeg 0`: it equals neither of the claim's two forms (it has 8
elements, the claimed quality form has 10 for every quality value). -/
theorem jpeg_fallback_form_cex :
    encodeCommands "cjxl" "a.jpg" "a.jxl" 7 90 true false 1 =
      [losslessForm "cjxl" "a.jpg" "a.jxl" 7,
       fallbackForm "cjxl" "a.jpg" "a.jxl" 7 90] ∧
    fallbackForm "cjxl" "a.jpg" "a.jxl" 7 90 ≠
      losslessForm "cjxl" "a.jpg" "a.jxl" 7 ∧
    fallbackForm "cjxl" "a.jpg" "a.jxl" 7 90 ≠
      qualityForm "cjxl" "a.jpg" "a.jxl" 7 90 ∧
    (fallbackForm "cjxl" "a.jpg" "a.jxl" 7 90).length = 8 ∧
    (qualityForm "cjxl" "a.jpg" "a.jxl" 7 90).length = 10 := by
  refine ⟨rfl, ?_, ?_, rfl, rfl⟩ <;> decide

/-- C3 (amended).  Every primary-encoder invocation has one of three
forms: the lossless form, the `--lossless_jpeg 0` quality form, or the
flagless quality fallback.  A JPEG-family input on a non-sanitize run
tries the lossless form first and issues the fallback form (not the
claim's `--lossless_jpeg 0` form, which has a different length for every
quality) exactly when the lossless invocation fails; every other task goes
directly to the `--lossless_jpeg 0` quality form. -/
theorem encoder_invocation_forms (cjxl src tgt : String) (effort quality : Nat)
    (isJpeg useSanitize : Bool) (lret : Nat) :
    (∀ c ∈ encodeCommands cjxl src tgt effort quality isJpeg useSanitize lret,
      c = losslessForm cjxl src tgt effort ∨
      c = fallbackForm cjxl src tgt effort quality ∨
      c = qualityForm cjxl src tgt effort quality) ∧
    (isJpeg = true → useSanitize = false →
      (encodeCommands cjxl src tgt effort quality isJpeg useSanitize lret).head? =
        some (losslessForm cjxl src tgt effort) ∧
      (lret ≠ 0 →
        encodeCommands cjxl src tgt effort quality isJpeg useSanitize lret =
          [losslessForm cjxl src tgt effort,
           fallbackForm cjxl src tgt effort quality]) ∧
      (lret = 0 →
        encodeCommands cjxl src tgt effort quality isJpeg useSanitize lret =
          [losslessForm cjxl src tgt effort])) ∧
    ((isJpeg = false ∨ useSanitize = true) →
      encodeCommands cjxl src tgt effort quality isJpeg useSanitize lret =
        [qualityForm cjxl src tgt effort quality]) ∧
    (fallbackForm cjxl src tgt effort quality).length = 8 ∧
    (qualityForm cjxl src tgt effort quality).length = 10 := by
  refine ⟨?_, ?_, ?_, rfl, rfl⟩
  · intro c hc
    unfold encodeCommands at hc
    split at hc
    · split at hc
      · rcases List.mem_cons.mp hc with rfl | hc2
        · left; rfl
        · rcases List.mem_cons.mp hc2 with rfl | hc3
          · right; left; rfl
          · cases hc3
      · rcases List.mem_cons.mp hc with rfl | hc2
        · left; rfl
        · cases hc2
    · rcases List.mem_cons.mp hc with rfl | hc2
      · right; right; rfl
      · cases hc2
  · intro hj hs
    subst hj; subst hs
    unfold encodeCommands
    rw [if_pos ⟨rfl, by simp⟩]
    by_cases hl : lret ≠ 0
    · rw [if_pos hl]
      exact ⟨rfl, fun _ => rfl, fun h0 => absurd h0 hl⟩
    · rw [if_neg hl]
      exact ⟨rfl, fun h => absurd (by omega : lret = 0) h, fun _ => rfl⟩
  · intro hor
    unfold encodeCommands
    rw [if_neg (by rcases hor with h | h <;> simp [h])]
    rfl

/-- Witness for `encoder_invocation_forms` at concrete arguments. -/
theorem encoder_invocation_forms_witness :
    (encodeCommands "cjxl" "b.jpg" "b.jxl" 7 90 true false 1).head? =
      some (losslessForm "cjxl" "b.jpg" "b.jxl" 7) ∧
    encodeCommands "cjxl" "b.jpg" "b.jxl" 7 90 true false 1 =
      [losslessForm "cjxl" "b.jpg" "b.jxl" 7,
       fallbackForm "cjxl" "b.jpg" "b.jxl" 7 90] ∧
    encodeCommands "cjxl" "c.png" "c.jxl" 7 90 false false 0 =
      [qualityForm "cjxl" "c.png" "c.jxl" 7 90] := by
  have h1 := (encoder_invocation_forms "cjxl" "b.jpg" "b.jxl" 7 90 true false 1).2.1
    rfl rfl
  have h2 := (encoder_invocation_forms "cjxl" "c.png" "c.jxl" 7 90 false false 0).2.2.1
    (Or.inl rfl)
  exact ⟨h1.1, h1.2.1 (by decide), h2⟩

/-! ### C6: the FAILED message (`conversion_worker`, line 404)

`result.stderr` is a decoded text string; the model covers the ASCII
alphabet, with Python's `str.strip()` whitespace set restricted to its
ASCII members (space, `\t`-`\r`, `\x1c`-`\x1f`) and `str.splitlines()`
boundaries restricted to theirs (`\n`, `\v`, `\f`, `\r`, `\r\n`,
`\x1c`-`\x1e`). -/

/-- ASCII whitespace of Python `str.strip()`. -/
def pyWhitespace (c : Char) : Bool :=
  c.toNat == 32 || (9 ≤ c.toNat && c.toNat ≤ 13) || (28 ≤ c.toNat && c.toNat ≤ 31)

/-- ASCII single-character line boundaries of Python `str.splitlines()`. -/
def pyLineBreak (c : Char) : Bool :=
  (10 ≤ c.toNat && c.toNat ≤ 13) || (28 ≤ c.toNat && c.toNat ≤ 30)

/-- Python `str.strip()` on ASCII text. -/
def pyStrip (s : String) : String :=
  String.mk (List.rdropWhile pyWhitespace (s.data.dropWhile pyWhitespace))

/-- Python `str.splitlines()` worker: split at line boundaries, `\r\n`
counting as one boundary, with no trailing empty line. -/
def splitlinesAux : List Char → List Char → List (List Char)
  | [], acc => if acc.isEmpty then [] else [acc.reverse]
  | '\x0d' :: '\x0a' :: rest, acc => acc.reverse :: splitlinesAux rest []
  | c :: rest, acc =>
    if pyLineBreak c then acc.reverse :: splitlinesAux rest []
    else splitlinesAux rest (c :: acc)

/-- Python `str.splitlines()` on ASCII text. -/
def pySplitlines (s : String) : List String :=
  (splitlinesAux s.data []).map String.mk

/-- The failure-message expression at line 404,
`result.stderr.strip().splitlines()[-1] if result.stderr else "cjxl
error"`; `none` models the `IndexError` that `[-1]` raises when a
non-empty but whitespace-only stderr strips to `""` and `splitlines()`
returns `[]`. -/
def errorMsg (stderr : String) : Option String :=
  if stderr = "" then some "cjxl error"
  else (pySplitlines (pyStrip stderr)).getLast?

/-- The message finally recorded for the index: line 404's value, or, when
that expression raises `IndexError`, the `"Worker crash: ..."` message the
task-boundary handler at lines 407-409 reports instead. -/
def failedMessage (stderr : String) : String :=
  match errorMsg stderr with
  | some m => m
  | none => "Worker crash: IndexError"

/-! ### C4: sanitize-task temporary-file cleanup (`conversion_worker`) -/

/-- Oracle for one sanitize task (lines 361-409): outcomes of the external
calls, and whether the `cjxl` subprocess call itself raises (e.g. an
`OSError`), which jumps to the handler at lines 407-409. -/
structure SanitizeTaskEnv where
  magickAvailable : Bool
  sanitizeRet : Nat
  tempOk : Bool
  encodeRaises : Bool
  encodeRet : Nat
  targetExists : Bool
  stderr : String
deriving Repr

/-- Result of processing one sanitize task: the reported status and
message, and whether the temporary `sanitized_<name>.png` file still
exists when the worker moves to the next task. -/
structure SanitizeOutcome where
  status : String
  message : String
  tempExists : Bool
deriving DecidableEq, Repr

/-- The worker's processing of one sanitize task (lines 361-409).  The
temp file is deleted at line 370 on sanitize failure and at line 396 after
the encode call returns; an exception raised by the encode call skips line
396 (there is no `try/finally`), leaving the temp file behind. -/
def runSanitizeTask (env : SanitizeTaskEnv) : SanitizeOutcome :=
  if ¬ env.magickAvailable then
    { status := "FAILED", message := "ImageMagick not found", tempExists := false }
  else if env.sanitizeRet ≠ 0 ∨ ¬ env.tempOk then
    { status := "FAILED", message := "Sanitize failed", tempExists := false }
  else if env.encodeRaises then
    { status := "FAILED", message := "Worker crash: OSError", tempExists := true }
  else if env.encodeRet = 0 ∧ env.targetExists then
    { status := "SUCCESS", message := "", tempExists := false }
  else
    { status := "FAILED", message := failedMessage env.stderr, tempExists := false }

/-- C4 counterexample.  A sanitize task whose sanitizer succeeds but whose
encode subprocess call raises ends with the temporary file still on disk:
the handler at lines 407-409 reports the failure but never deletes
`temp_png`, so the claimed cleanup on the exception exit path fails. -/
theorem sanitize_temp_leak_cex :
    runSanitizeTask
        { magickAvailable := true, sanitizeRet := 0, tempOk := true,
          encodeRaises := true, encodeRet := 0, targetExists := false,
          stderr := "" } =
      { status := "FAILED", message := "Worker crash: OSError",
        tempExists := true } ∧
    (runSanitizeTask
        { magickAvailable := true, sanitizeRet := 0, tempOk := true,
          encodeRaises := true, encodeRet := 0, targetExists := false,
          stderr := "" }).tempExists = true := by
  exact ⟨rfl, rfl⟩

/-- C4 (amended).  The temporary intermediate file survives a sanitize
task exactly when the sanitizer ran successfully and the encode subprocess
call then raised (the cleanup at line 396 is skipped); on the
sanitize-failure, encode-success and encode-failure paths — every path on
which no exception interrupts the encode step — the temp file is always
removed. -/
theorem sanitize_temp_cleanup (env : SanitizeTaskEnv) :
    (runSanitizeTask env).tempExists = true ↔
      env.encodeRaises = true ∧ env.magickAvailable = true ∧
        env.sanitizeRet = 0 ∧ env.tempOk = true := by
  unfold runSanitizeTask
  split_ifs with h1 h2 h3 h4
  all_goals simp_all
  all_goals tauto

theorem mem_of_getLast?_eq_some {α : Type} {l : List α} {a : α}
    (h : l.getLast? = some a) : a ∈ l := by
  obtain ⟨hne, rfl⟩ := List.mem_getLast?_eq_getLast (by rw [h]; rfl)
  exact List.getLast_mem hne

theorem pyLineBreak_whitespace {c : Char} (h : pyLineBreak c = true) :
    pyWhitespace c = true := by
  simp only [pyLineBreak, pyWhitespace, Bool.or_eq_true, Bool.and_eq_true,
    decide_eq_true_eq, beq_iff_eq] at *
  omega

theorem pyStrip_substring (s : String) : (pyStrip s).data <:+: s.data := by
  obtain ⟨t, ht⟩ : List.rdropWhile pyWhitespace (s.data.dropWhile pyWhitespace) <+:
      s.data.dropWhile pyWhitespace := List.rdropWhile_prefix _ _
  obtain ⟨u, hu⟩ : s.data.dropWhile pyWhitespace <:+ s.data :=
    List.dropWhile_suffix _
  exact ⟨u, t, by rw [← hu, ← ht]; simp [pyStrip]⟩

theorem pyStrip_getLast_not_ws (s : String) (h : (pyStrip s).data ≠ []) :
    ¬ pyWhitespace ((pyStrip s).data.getLast h) = true :=
  List.rdropWhile_last_not pyWhitespace (s.data.dropWhile pyWhitespace) h

theorem splitlinesAux_single (c : Char) (acc : List Char) :
    splitlinesAux [c] acc =
      if pyLineBreak c then acc.reverse :: splitlinesAux [] []
      else splitlinesAux [] (c :: acc) := by
  by_cases hc : c = '\x0d'
  · subst hc
    rfl
  · conv_lhs => rw [splitlinesAux.eq_def]
    simp [hc]

theorem splitlinesAux_cons₂ (c d : Char) (rest acc : List Char)
    (h : ¬(c = '\x0d' ∧ d = '\x0a')) :
    splitlinesAux (c :: d :: rest) acc =
      if pyLineBreak c then acc.reverse :: splitlinesAux (d :: rest) []
      else splitlinesAux (d :: rest) (c :: acc) := by
  by_cases hc : c = '\x0d'
  · subst hc
    by_cases hd : d = '\x0a'
    · exact absurd ⟨rfl, hd⟩ h
    · rw [show pyLineBreak '\x0d' = true from rfl]
      simp only [if_true]
      conv_lhs => rw [splitlinesAux.eq_def]
      simp [hd]
      intro hfb
      exact absurd hfb (by decide)
  · have hcrlf : ∀ rest' : List Char, c :: d :: rest ≠ '\x0d' :: '\x0a' :: rest' := by
      intro rest' hcon
      exact hc (by injection hcon)
    conv_lhs => rw [splitlinesAux.eq_def]
    simp [hc]

theorem getLast?_cons_ne {α : Type} (a : α) {L : List α} (h : L ≠ []) :
    (a :: L).getLast? = L.getLast? := by
  cases L with
  | nil => exact absurd rfl h
  | cons b l => exact List.getLast?_cons_cons

theorem splitlinesAux_ne_nil (l acc : List Char) (hl : l ≠ []) :
    splitlinesAux l acc ≠ [] := by
  suffices H : ∀ (n : Nat) (l acc : List Char), l.length ≤ n → l ≠ [] →
      splitlinesAux l acc ≠ [] from H l.length l acc le_rfl hl
  intro n
  induction n with
  | zero =>
    intro l acc hlen hne
    exact absurd (List.length_eq_zero.mp (Nat.le_zero.mp hlen)) hne
  | succ n ihn =>
    intro l acc hlen hne
    match l with
    | [] => exact absurd rfl hne
    | [c] =>
      rw [splitlinesAux_single]
      split
      · simp
      · simp [splitlinesAux]
    | c :: d :: rest =>
      by_cases hcd : c = '\x0d' ∧ d = '\x0a'
      · obtain ⟨rfl, rfl⟩ := hcd
        rw [show splitlinesAux ('\x0d' :: '\x0a' :: rest) acc
            = acc.reverse :: splitlinesAux rest [] from rfl]
        simp
      · rw [splitlinesAux_cons₂ c d rest acc hcd]
        split
        · simp
        · refine ihn (d :: rest) (c :: acc) ?_ (by simp)
          simp only [List.length_cons] at hlen ⊢
          omega

theorem splitlinesAux_substring (l acc x : List Char) (hx : x ∈ splitlinesAux l acc) :
    x <:+: (acc.reverse ++ l) := by
  suffices H : ∀ (n : Nat) (l acc x : List Char), l.length ≤ n →
      x ∈ splitlinesAux l acc → x <:+: (acc.reverse ++ l) from
    H l.length l acc x le_rfl hx
  intro n
  induction n with
  | zero =>
    intro l acc x hlen hmem
    rw [List.length_eq_zero.mp (Nat.le_zero.mp hlen)] at hmem ⊢
    rw [show splitlinesAux [] acc = if acc.isEmpty then [] else [acc.reverse]
        from rfl] at hmem
    split at hmem
    · cases hmem
    · rcases List.mem_cons.mp hmem with rfl | hx2
      · exact ⟨[], [], by simp⟩
      · cases hx2
  | succ n ihn =>
    intro l acc x hlen hmem
    match l with
    | [] =>
      rw [show splitlinesAux [] acc = if acc.isEmpty then [] else [acc.reverse]
          from rfl] at hmem
      split at hmem
      · cases hmem
      · rcases List.mem_cons.mp hmem with rfl | hx2
        · exact ⟨[], [], by simp⟩
        · cases hx2
    | [c] =>
      rw [splitlinesAux_single] at hmem
      split at hmem
      · rcases List.mem_cons.mp hmem with rfl | hx2
        · exact ⟨[], [c], by simp⟩
        · simp [splitlinesAux] at hx2
      · have hx2 : x = (c :: acc).reverse := by
          simpa [splitlinesAux] using hmem
        subst hx2
        exact ⟨[], [], by simp⟩
    | c :: d :: rest =>
      have hlen2 : (d :: rest : List Char).length ≤ n := by
        simp only [List.length_cons] at hlen ⊢
        omega
      by_cases hcd : c = '\x0d' ∧ d = '\x0a'
      · obtain ⟨rfl, rfl⟩ := hcd
        rw [show splitlinesAux ('\x0d' :: '\x0a' :: rest) acc
            = acc.reverse :: splitlinesAux rest [] from rfl] at hmem
        rcases List.mem_cons.mp hmem with rfl | hx2
        · exact ⟨[], '\x0d' :: '\x0a' :: rest, by simp⟩
        · have hrlen : (rest : List Char).length ≤ n := by
            simp only [List.length_cons] at hlen
            omega
          have hrec := ihn rest [] x hrlen hx2
          simp only [List.reverse_nil, List.nil_append] at hrec
          exact hrec.trans ⟨acc.reverse ++ ['\x0d', '\x0a'], [], by simp⟩
      · rw [splitlinesAux_cons₂ c d rest acc hcd] at hmem
        split at hmem
        · rcases List.mem_cons.mp hmem with rfl | hx2
          · exact ⟨[], c :: d :: rest, by simp⟩
          · have hrec := ihn (d :: rest) [] x hlen2 hx2
            simp only [List.reverse_nil, List.nil_append] at hrec
            exact hrec.trans ⟨acc.reverse ++ [c], [], by simp⟩
        · have hrec := ihn (d :: rest) (c :: acc) x hlen2 hmem
          simpa [List.append_assoc] using hrec

theorem splitlinesAux_getLast_ne_nil (l acc : List Char) (hl : l ≠ [])
    (hlast : pyLineBreak (l.getLast hl) = false) :
    ∃ m, (splitlinesAux l acc).getLast? = some m ∧ m ≠ [] := by
  suffices H : ∀ (n : Nat) (l acc : List Char) (hl : l ≠ []), l.length ≤ n →
      pyLineBreak (l.getLast hl) = false →
      ∃ m, (splitlinesAux l acc).getLast? = some m ∧ m ≠ [] from
    H l.length l acc hl le_rfl hlast
  intro n
  induction n with
  | zero =>
    intro l acc hl hlen _
    exact absurd (List.length_eq_zero.mp (Nat.le_zero.mp hlen)) hl
  | succ n ihn =>
    intro l acc hl hlen hla
    match l with
    | [] => exact absurd rfl hl
    | [c] =>
      rw [List.getLast_singleton] at hla
      rw [splitlinesAux_single, if_neg (by simp [hla])]
      exact ⟨(c :: acc).reverse, by simp [splitlinesAux], by simp⟩
    | c :: d :: rest =>
      have hdrest : (d :: rest : List Char) ≠ [] := by simp
      have hla2 : pyLineBreak ((d :: rest).getLast hdrest) = false := by
        rwa [List.getLast_cons hdrest] at hla
      have hlen2 : (d :: rest : List Char).length ≤ n := by
        simp only [List.length_cons] at hlen ⊢
        omega
      by_cases hcd : c = '\x0d' ∧ d = '\x0a'
      · obtain ⟨rfl, rfl⟩ := hcd
        rcases rest with _ | ⟨e, rest2⟩
        · rw [List.getLast_singleton] at hla2
          exact absurd hla2 (by decide)
        · have hrest : (e :: rest2 : List Char) ≠ [] := by simp
          have hla3 : pyLineBreak ((e :: rest2).getLast hrest) = false := by
            rwa [List.getLast_cons hrest] at hla2
          have hrlen : (e :: rest2 : List Char).length ≤ n := by
            simp only [List.length_cons] at hlen ⊢
            omega
          obtain ⟨m, hm, hne⟩ := ihn (e :: rest2) [] hrest hrlen hla3
          refine ⟨m, ?_, hne⟩
          rw [show splitlinesAux ('\x0d' :: '\x0a' :: e :: rest2) acc
              = acc.reverse :: splitlinesAux (e :: rest2) [] from rfl]
          rw [getLast?_cons_ne _ (splitlinesAux_ne_nil (e :: rest2) [] hrest)]
          exact hm
      · rw [splitlinesAux_cons₂ c d rest acc hcd]
        split
        · obtain ⟨m, hm, hne⟩ := ihn (d :: rest) [] hdrest hlen2 hla2
          refine ⟨m, ?_, hne⟩
          rw [getLast?_cons_ne _ (splitlinesAux_ne_nil (d :: rest) [] hdrest)]
          exact hm
        · exact ihn (d :: rest) (c :: acc) hdrest hlen2 hla2

/-- C6 counterexample.  A non-empty, whitespace-only captured stderr
(here `"\n"`) strips to `""`, `splitlines()` returns `[]`, and the `[-1]`
lookup raises `IndexError`: the recorded message is the task-boundary
handler's `"Worker crash: IndexError"`, which is neither a line of the
stderr nor the generic fallback. -/
theorem whitespace_stderr_cex :
    errorMsg "\x0a" = none ∧
    failedMessage "\x0a" = "Worker crash: IndexError" ∧
    ("Worker crash: IndexError" : String) ≠ "cjxl error" := by
  exact ⟨rfl, rfl, by decide⟩

/-- C6 (amended).  For an empty captured stderr the recorded message is
the generic fallback `"cjxl error"`; for a stderr that still contains a
non-whitespace character after stripping, line 404 yields a non-empty
substring of the captured stderr (the last line of the stripped text);
but for a non-empty, whitespace-only stderr the `[-1]` lookup raises
`IndexError` and the message recorded is the worker-crash fallback.
(The model covers ASCII stderr text.) -/
theorem failed_message_spec (stderr : String) :
    (stderr = "" → errorMsg stderr = some "cjxl error") ∧
    (pyStrip stderr ≠ "" →
      ∃ m, errorMsg stderr = some m ∧ m ≠ "" ∧ m.data <:+: stderr.data) ∧
    (stderr ≠ "" → pyStrip stderr = "" → errorMsg stderr = none ∧
      failedMessage stderr = "Worker crash: IndexError") := by
  refine ⟨fun h => by rw [errorMsg, if_pos h], ?_, ?_⟩
  · intro hst
    have hne : stderr ≠ "" := by
      intro h
      subst h
      exact hst rfl
    have hdata : (pyStrip stderr).data ≠ [] := by
      intro h
      exact hst (String.ext (by rw [h]))
    have hlast : pyLineBreak ((pyStrip stderr).data.getLast hdata) = false := by
      have hws := pyStrip_getLast_not_ws stderr hdata
      by_contra hb
      rw [Bool.not_eq_false] at hb
      exact hws (pyLineBreak_whitespace hb)
    obtain ⟨m, hm, hmne⟩ :=
      splitlinesAux_getLast_ne_nil (pyStrip stderr).data [] hdata hlast
    refine ⟨String.mk m, ?_, ?_, ?_⟩
    · rw [errorMsg, if_neg hne, pySplitlines, List.getLast?_map, hm]
      rfl
    · intro hcon
      apply hmne
      have := congrArg String.data hcon
      simpa using this
    · have h1 : m <:+: (pyStrip stderr).data := by
        have := splitlinesAux_substring (pyStrip stderr).data [] m
          (mem_of_getLast?_eq_some hm)
        simpa using this
      exact h1.trans (pyStrip_substring stderr)
  · intro hne hstrip
    have hnone : errorMsg stderr = none := by
      rw [errorMsg, if_neg hne, hstrip]
      rfl
    refine ⟨hnone, ?_⟩
    unfold failedMessage
    rw [hnone]

/-- Witness for `failed_message_spec` at concrete stderr values. -/
theorem failed_message_spec_witness :
    errorMsg "" = some "cjxl error" ∧
    (∃ m, errorMsg "Error: bad pixel\x0a" = some m ∧ m ≠ "" ∧
      m.data <:+: ("Error: bad pixel\x0a" : String).data) ∧
    errorMsg "\x0a\x0a" = none := by
  refine ⟨(failed_message_spec "").1 rfl,
    (failed_message_spec "Error: bad pixel\x0a").2.1 (by decide),
    ((failed_message_spec "\x0a\x0a").2.2 (by decide) (by decide)).1⟩

/-! ### C7: directory-creation failure during batch build -/

/-- Model of `_get_unique_target_path` with the `target_dir.mkdir(parents=True,
exist_ok=True)` side effect at line 310 made explicit: `mkdirOk` says
which target directories can be created, and a failing `mkdir` raises
(e.g. `PermissionError`), modelled as `Except.error ()`. -/
def getUniqueTargetPathExc (mkdirOk : String → Bool) (dir stem : String)
    (reserved disk : List String) : Except Unit String :=
  if mkdirOk dir then .ok (getUniqueTargetPath dir stem reserved disk)
  else .error ()

/-- The batch-build loop of `_start_conversion_session` (lines 327-333)
with the mkdir exception propagating as Python propagates it: the loop
body has no handler, so a failure aborts the whole build and no task
(including those already built) survives to be enqueued. -/
def buildBatchTasksExc (mkdirOk : String → Bool) (files : Nat → String × String)
    (disk : List String) (isSanitizeRun : Bool) :
    List Nat → List String → Except Unit (List ConvTask)
  | [], _ => .ok []
  | idx :: rest, reserved =>
    match getUniqueTargetPathExc mkdirOk (files idx).1 (files idx).2 reserved disk with
    | .error e => .error e
    | .ok t =>
      (buildBatchTasksExc mkdirOk files disk isSanitizeRun rest (t :: reserved)).map
        (fun ts => ⟨idx, t, isSanitizeRun⟩ :: ts)

/-- A file table whose index `1` resolves to an uncreatable directory. -/
def c7Files : Nat → String × String :=
  fun i => if i = 1 then ("bad", "b") else ("ok", "a")

/-- An mkdir oracle that fails exactly on the directory `"bad"`. -/
def c7Mkdir : String → Bool := fun d => d ≠ "bad"

/-- C7 counterexample.  With three selected files whose middle one has an
uncreatable target directory, the batch build aborts with the propagated
exception: the result is an error carrying no tasks at all, rather than a
two-task batch for the remaining files as the claim describes. -/
theorem mkdir_failure_aborts_build_cex :
    buildBatchTasksExc c7Mkdir c7Files [] false [0, 1, 2] [] = .error () := by
  rfl

/-- C7 (amended).  If the target directory of any selected file cannot be
created, the `DirectoryCreationError` propagates out of the batch-build
loop (which has no per-task handler): the whole build aborts and nothing
is enqueued, not even the tasks already built for earlier files.  Only
when every selected file's directory can be created does the build
succeed, yielding exactly the exception-free build's tasks. -/
theorem mkdir_failure_aborts_build (mkdirOk : String → Bool)
    (files : Nat → String × String) (disk : List String) (isSan : Bool) :
    ∀ (idxs : List Nat) (reserved : List String),
      ((∃ i ∈ idxs, mkdirOk (files i).1 = false) →
        buildBatchTasksExc mkdirOk files disk isSan idxs reserved = .error ()) ∧
      ((∀ i ∈ idxs, mkdirOk (files i).1 = true) →
        buildBatchTasksExc mkdirOk files disk isSan idxs reserved =
          .ok (buildBatchTasks files disk isSan idxs reserved)) := by
  intro idxs
  induction idxs with
  | nil =>
    intro reserved
    exact ⟨fun ⟨i, hi, _⟩ => absurd hi (List.not_mem_nil i), fun _ => rfl⟩
  | cons j rest ih =>
    intro reserved
    constructor
    · rintro ⟨i, hi, hbad⟩
      rw [buildBatchTasksExc]
      rcases List.mem_cons.mp hi with rfl | hi2
      · rw [getUniqueTargetPathExc, if_neg (by simp [hbad])]
      · by_cases hj : mkdirOk (files j).1 = true
        · rw [getUniqueTargetPathExc, if_pos hj]
          dsimp only
          rw [(ih _).1 ⟨i, hi2, hbad⟩]
          rfl
        · rw [getUniqueTargetPathExc, if_neg (by simp_all)]
    · intro hall
      rw [buildBatchTasksExc]
      rw [getUniqueTargetPathExc, if_pos (hall j (List.mem_cons_self j rest))]
      dsimp only
      rw [(ih _).2 (fun i hi => hall i (List.mem_cons_of_mem j hi))]
      rw [buildBatchTasks]
      rfl

/-- Witness for `mkdir_failure_aborts_build` at concrete inputs. -/
theorem mkdir_failure_aborts_build_witness :
    buildBatchTasksExc c7Mkdir c7Files [] false [0, 1, 2] ["r"] = .error () ∧
    buildBatchTasksExc c7Mkdir c7Files [] false [0, 2] [] =
      .ok (buildBatchTasks c7Files [] false [0, 2] []) :=
  ⟨(mkdir_failure_aborts_build c7Mkdir c7Files [] false [0, 1, 2] ["r"]).1
      ⟨1, by decide, by decide⟩,
   (mkdir_failure_aborts_build c7Mkdir c7Files [] false [0, 2] []).2
      (by decide)⟩

/-! ### C8: process shutdown (`run`, lines 463-520) -/

/-- The quit decision applied to one non-navigation key in the body of the
`while True:` UI loop (lines 491-494 and 501-504): ESC (27) or `q` (113)
makes `run` return immediately — when a conversion is active, only after
the confirmation dialog is accepted.  `some st` is the state at the
`return`; `none` means the loop continues.  The loop exits only through
these `return` statements, so the cleanup code after the loop (lines
519-520, which would set `stop_thread` and join the worker) is
unreachable: no field changes on the way out. -/
def runQuitStep (st : TUIState) (key : Nat) (confirmQuit : Bool) : Option TUIState :=
  if (key = 27 ∨ key = 113) ∧ (st.isConverting = false ∨ confirmQuit = true) then
    some st
  else none

/-- An idle state with one task still sitting in the conversion queue. -/
def quitCexState : TUIState :=
  { files := fun _ => ("out", "a"), disk := [], selected := [0],
    statuses := fun _ => some initStatusRecord, failedIndices := [],
    isConverting := false, successCount := 0, failedCount := 0,
    totalBytesBefore := 0, totalBytesAfter := 0, startTime := 0,
    conversionQueue := [⟨1, "out/a.jxl", false⟩], statusQueue := [],
    lastConversionSummary := "", statusMessage := "", stopThreadSet := false,
    cjxlAvailable := true, magickAvailable := true, deleteOriginals := false }

/-- C8 counterexample.  Pressing `q` outside a batch returns from `run`
with the state unchanged: the cancellation flag is still clear and the
queued task is still in the queue, contradicting the claim that shutdown
sets the shared cancellation flag and joins the worker with a bounded
wait.  (The statements that would set the flag and join, lines 519-520,
sit after a `while True:` loop whose only exits are `return`s, so they
never execute; the queue's task is discarded only because the process
exits and the worker is a daemon thread.) -/
theorem quit_without_cancellation_cex :
    runQuitStep quitCexState 113 false = some quitCexState ∧
    quitCexState.stopThreadSet = false ∧
    quitCexState.conversionQueue.length = 1 := by
  exact ⟨rfl, rfl, rfl⟩

/-- C8 (amended).  Every normal-termination path of the UI loop returns
directly from `run` with the loop state unchanged: the cancellation flag
is never set and the queue is not cleared on the way out (queued tasks
are dropped only by process exit, the worker being a daemon thread); and a
quit key terminates the loop exactly when no batch is active or the user
confirms quitting mid-batch. -/
theorem quit_returns_without_cleanup (st : TUIState) (key : Nat) (confirm : Bool) :
    (∀ st', runQuitStep st key confirm = some st' →
      st' = st ∧ st'.stopThreadSet = st.stopThreadSet ∧
        st'.conversionQueue = st.conversionQueue) ∧
    (runQuitStep st key confirm = none ↔
      ¬((key = 27 ∨ key = 113) ∧ (st.isConverting = false ∨ confirm = true))) := by
  unfold runQuitStep
  split_ifs with h
  · refine ⟨fun st' hst' => ?_, by simp [h]⟩
    cases hst'
    exact ⟨rfl, rfl, rfl⟩
  · exact ⟨(fun st' hst' => nomatch hst'), by simp [h]⟩

/-- Witness for `quit_returns_without_cleanup` at a concrete state. -/
theorem quit_returns_without_cleanup_witness :
    quitCexState = quitCexState ∧
    quitCexState.stopThreadSet = quitCexState.stopThreadSet ∧
    quitCexState.conversionQueue = quitCexState.conversionQueue :=
  (quit_returns_without_cleanup quitCexState 113 false).1 quitCexState rfl

/-! ### C9: quality and effort bounds (`set_quality`/`set_effort`) -/

/-- Python `str.isdigit()` restricted to the printable-ASCII strings the
input dialog can produce (line 76 allows only characters 32-126): nonempty
with all characters `0`-`9`. -/
def pyIsdigit (s : String) : Bool :=
  !s.data.isEmpty && s.data.all (fun c => 48 ≤ c.toNat && c.toNat ≤ 57)

/-- Python `int()` on a digit string. -/
def parseDecimal (s : String) : Nat := ofDecimal s.data

/-- Model of `set_quality` (lines 444-448): `input` is the dialog result (`none`
for ESC/resize).  `new_val and new_val.isdigit() and 1 <= int(new_val) <=
100` guards the assignment; every other outcome leaves the value
unchanged. -/
def setQuality (q : Nat) (input : Option String) : Nat :=
  match input with
  | none => q
  | some v =>
    if v ≠ "" ∧ pyIsdigit v = true ∧ 1 ≤ parseDecimal v ∧ parseDecimal v ≤ 100 then
      parseDecimal v
    else q

/-- Model of `set_effort` (lines 449-453), same shape with bounds `1..9`. -/
def setEffort (e : Nat) (input : Option String) : Nat :=
  match input with
  | none => e
  | some v =>
    if v ≠ "" ∧ pyIsdigit v = true ∧ 1 ≤ parseDecimal v ∧ parseDecimal v ≤ 9 then
      parseDecimal v
    else e

/-- One quality- or effort-dialog interaction of the UI. -/
inductive UIEvent where
  | qualityDialog (input : Option String)
  | effortDialog (input : Option String)

/-- Fold one dialog interaction into the `(quality, effort)` pair. -/
def applyUIEvent : Nat × Nat → UIEvent → Nat × Nat
  | (q, e), .qualityDialog v => (setQuality q v, e)
  | (q, e), .effortDialog v => (q, setEffort e v)

theorem setQuality_bounds {q : Nat} (hq1 : 1 ≤ q) (hq2 : q ≤ 100)
    (input : Option String) :
    1 ≤ setQuality q input ∧ setQuality q input ≤ 100 := by
  unfold setQuality
  match input with
  | none => exact ⟨hq1, hq2⟩
  | some v =>
    dsimp only
    split_ifs with h
    · exact ⟨h.2.2.1, h.2.2.2⟩
    · exact ⟨hq1, hq2⟩

theorem setEffort_bounds {e : Nat} (he1 : 1 ≤ e) (he2 : e ≤ 9)
    (input : Option String) :
    1 ≤ setEffort e input ∧ setEffort e input ≤ 9 := by
  unfold setEffort
  match input with
  | none => exact ⟨he1, he2⟩
  | some v =>
    dsimp only
    split_ifs with h
    · exact ⟨h.2.2.1, h.2.2.2⟩
    · exact ⟨he1, he2⟩

theorem pyIsdigit_ne_empty {v : String} (h : pyIsdigit v = true) : v ≠ "" := by
  intro hcon
  subst hcon
  cases h

/-- C9.  Under any sequence of dialog interactions starting from the
defaults `(90, 7)`, quality stays in `1..100` and effort in `1..9`;
a cancelled dialog leaves the value unchanged, a non-digit or out-of-range
input string leaves it unchanged, and an all-digit in-range string is
accepted as the new value. -/
theorem quality_effort_invariant (evts : List UIEvent) :
    (1 ≤ (evts.foldl applyUIEvent (90, 7)).1 ∧
      (evts.foldl applyUIEvent (90, 7)).1 ≤ 100 ∧
      1 ≤ (evts.foldl applyUIEvent (90, 7)).2 ∧
      (evts.foldl applyUIEvent (90, 7)).2 ≤ 9) ∧
    (∀ q, setQuality q none = q) ∧
    (∀ e, setEffort e none = e) ∧
    (∀ q v, ¬(pyIsdigit v = true ∧ 1 ≤ parseDecimal v ∧ parseDecimal v ≤ 100) →
      setQuality q (some v) = q) ∧
    (∀ e v, ¬(pyIsdigit v = true ∧ 1 ≤ parseDecimal v ∧ parseDecimal v ≤ 9) →
      setEffort e (some v) = e) ∧
    (∀ q v, pyIsdigit v = true → 1 ≤ parseDecimal v → parseDecimal v ≤ 100 →
      setQuality q (some v) = parseDecimal v) ∧
    (∀ e v, pyIsdigit v = true → 1 ≤ parseDecimal v → parseDecimal v ≤ 9 →
      setEffort e (some v) = parseDecimal v) := by
  refine ⟨?_, fun q => rfl, fun e => rfl, ?_, ?_, ?_, ?_⟩
  · suffices H : ∀ (l : List UIEvent) (p : Nat × Nat),
        1 ≤ p.1 → p.1 ≤ 100 → 1 ≤ p.2 → p.2 ≤ 9 →
        1 ≤ (l.foldl applyUIEvent p).1 ∧ (l.foldl applyUIEvent p).1 ≤ 100 ∧
          1 ≤ (l.foldl applyUIEvent p).2 ∧ (l.foldl applyUIEvent p).2 ≤ 9 by
      exact H evts (90, 7) (by omega) (by omega) (by omega) (by omega)
    intro l
    induction l with
    | nil => intro p h1 h2 h3 h4; exact ⟨h1, h2, h3, h4⟩
    | cons ev rest ih =>
      intro p h1 h2 h3 h4
      rw [List.foldl_cons]
      match ev, p with
      | .qualityDialog v, (q, e) =>
        obtain ⟨hq1, hq2⟩ := setQuality_bounds h1 h2 v
        exact ih (setQuality q v, e) hq1 hq2 h3 h4
      | .effortDialog v, (q, e) =>
        obtain ⟨he1, he2⟩ := setEffort_bounds h3 h4 v
        exact ih (q, setEffort e v) h1 h2 he1 he2
  · intro q v h
    unfold setQuality
    dsimp only
    rw [if_neg (fun hcon => h ⟨hcon.2.1, hcon.2.2⟩)]
  · intro e v h
    unfold setEffort
    dsimp only
    rw [if_neg (fun hcon => h ⟨hcon.2.1, hcon.2.2⟩)]
  · intro q v h1 h2 h3
    unfold setQuality
    dsimp only
    rw [if_pos ⟨pyIsdigit_ne_empty h1, h1, h2, h3⟩]
  · intro e v h1 h2 h3
    unfold setEffort
    dsimp only
    rw [if_pos ⟨pyIsdigit_ne_empty h1, h1, h2, h3⟩]

/-- Witness for `quality_effort_invariant` on a concrete interaction
sequence and concrete dialog strings. -/
theorem quality_effort_invariant_witness :
    (1 ≤ (([UIEvent.qualityDialog (some "50"), UIEvent.effortDialog none,
        UIEvent.qualityDialog (some "abc")].foldl applyUIEvent (90, 7)).1) ∧
      (([UIEvent.qualityDialog (some "50"), UIEvent.effortDialog none,
        UIEvent.qualityDialog (some "abc")].foldl applyUIEvent (90, 7)).1 ≤ 100) ∧
      1 ≤ (([UIEvent.qualityDialog (some "50"), UIEvent.effortDialog none,
        UIEvent.qualityDialog (some "abc")].foldl applyUIEvent (90, 7)).2) ∧
      (([UIEvent.qualityDialog (some "50"), UIEvent.effortDialog none,
        UIEvent.qualityDialog (some "abc")].foldl applyUIEvent (90, 7)).2 ≤ 9)) ∧
    setQuality 90 (some "abc") = 90 ∧
    setQuality 90 (some "101") = 90 ∧
    setQuality 90 (some "50") = parseDecimal "50" ∧
    setEffort 7 (some "9") = parseDecimal "9" := by
  have h := quality_effort_invariant [UIEvent.qualityDialog (some "50"),
    UIEvent.effortDialog none, UIEvent.qualityDialog (some "abc")]
  refine ⟨⟨h.1.1, h.1.2.1, h.1.2.2.1, h.1.2.2.2⟩, ?_, ?_, ?_, ?_⟩
  · exact h.2.2.2.1 90 "abc" (by decide)
  · exact h.2.2.2.1 90 "101" (by decide)
  · exact h.2.2.2.2.2.1 90 "50" (by decide) (by decide) (by decide)
  · exact h.2.2.2.2.2.2 7 "9" (by decide) (by decide) (by decide)

end Mkjxl
